import Mathlib

/-!
# Verification of the forex-analyst-bot job queue and background processor

Shallow embedding of the job-queue subsystem of the repository:
the D1-backed job store (`enqueueAnalysisJob`, `claimNextQueuedJob`,
`requeueJob`, `markJobDone`, `markJobError`, `pruneDoneJobHistory`,
`getUserQueueStats`, `hasQueuedJobs`, `estimateSecondsPerImage` in
`worker.js`, identical code exported by `queue.js`), the internal
background-processing entry point (`handleInternalAnalyze` in
`handlers.js` and in the monolithic `worker.js`, whose failure handling
differs) and the image fast path of the monolithic `handleEvent`.

Modelling conventions:
* A D1 table is a `List Job` in row-insertion (rowid) order; `INSERT`
  appends, `UPDATE ... WHERE` is a `List.map` guarded by the predicate,
  `DELETE ... WHERE` is a `List.filter`, `ORDER BY x LIMIT 1` selects the
  first row in rowid order among those with the extremal key (SQLite scans
  rowids, so ties resolve to insertion order), and `ORDER BY x DESC` is a
  stable descending sort.
* `Date.now()` becomes an explicit `now : Nat` argument (ms since epoch).
* JS `null` for strings is the empty string where the code only tests
  truthiness, and `Option` where the column is genuinely nullable.
* External effects (LINE replies, the Gemini call, the result store, KV)
  are oracles/outputs: the analysis invocation outcome is a parameter and
  persisted payloads are returned alongside the job store.
-/

/-- Job status column of the analysis_jobs table
(worker.js schema line 955: queued, processing, done, error). -/
inductive JStatus
  | queued
  | processing
  | done
  | error
deriving DecidableEq, Repr

/-- One row of the `analysis_jobs` table (worker.js lines 952-961). -/
structure Job where
  job_id : String
  user_id : String
  message_id : String
  created_at : Nat
  status : JStatus
  attempt : Nat
  started_at : Option Nat
  finished_at : Option Nat
  result_tf : Option String
  last_error : Option String
deriving DecidableEq, Repr

/-- The `analysis_jobs` table, rows in rowid (insertion) order. -/
abbrev Store := List Job

/-- JS `userId.slice(-6)` (worker.js line 1018): the last six characters,
or the whole string when shorter. -/
def sliceLast6 (s : String) : String :=
  ⟨s.data.drop (s.length - 6)⟩

/-- JS `String(x).slice(0, 800)` used to truncate error messages
(worker.js lines 1237 and 1296). -/
def trunc800 (s : String) : String :=
  ⟨s.data.take 800⟩

/-- `makeJobId` (worker.js lines 1016-1019):
`Date.now() + "_" + userId.slice(-6) + "_" + messageId`. -/
def makeJobId (now : Nat) (userId messageId : String) : String :=
  toString now ++ "_" ++ sliceLast6 userId ++ "_" ++ messageId

/-- The row inserted by `enqueueAnalysisJob` (worker.js lines 1025-1029):
status queued, attempt 0, every other mutable column NULL. -/
def newJobRow (userId messageId : String) (now : Nat) : Job :=
  { job_id := makeJobId now userId messageId, user_id := userId,
    message_id := messageId, created_at := now, status := .queued,
    attempt := 0, started_at := none, finished_at := none,
    result_tf := none, last_error := none }

/-- `enqueueAnalysisJob` (worker.js lines 1021-1031): computes its own job
id and creation time from the clock, performs `INSERT OR IGNORE` (job_id is
the primary key, so an existing id makes the insert a no-op) and returns
the locally computed pair, not fields read back from the table. -/
def enqueueAnalysisJob (userId messageId : String) (now : Nat) (s : Store) :
    Store × String × Nat :=
  let jobId := makeJobId now userId messageId
  if s.any (fun j => decide (j.job_id = jobId)) then
    (s, jobId, now)
  else
    (s ++ [newJobRow userId messageId now], jobId, now)

/-- `SELECT COUNT(*) ... WHERE user_id = ? AND status = 'processing'`
(worker.js lines 1037-1038 and 1194-1195). -/
def processingCount (userId : String) (s : Store) : Nat :=
  (s.filter fun j => decide (j.user_id = userId ∧ j.status = .processing)).length

/-- `SELECT COUNT(*) ... WHERE user_id = ? AND status = 'queued'`
(worker.js lines 1035-1036 and 1301-1302). -/
def queuedCount (userId : String) (s : Store) : Nat :=
  (s.filter fun j => decide (j.user_id = userId ∧ j.status = .queued)).length

/-- `getUserQueueStats` (worker.js lines 1033-1043). -/
def getUserQueueStats (userId : String) (s : Store) : Nat × Nat :=
  (queuedCount userId s, processingCount userId s)

/-- `hasQueuedJobs` (worker.js lines 1299-1304). -/
def hasQueuedJobs (userId : String) (s : Store) : Bool :=
  decide (0 < queuedCount userId s)

/-- `SELECT ... ORDER BY created_at ASC LIMIT 1` over a rowid-ordered row
list: the first row carrying the minimal `created_at` (ties keep the
earlier row, mirroring the rowid scan). -/
def selectOldest : List Job → Option Job
  | [] => none
  | j :: rest =>
    match selectOldest rest with
    | none => some j
    | some k => if j.created_at ≤ k.created_at then some j else some k

/-- The row data `claimNextQueuedJob` returns to its caller
(worker.js lines 1219-1225). -/
structure Claimed where
  job_id : String
  message_id : String
  created_at : Nat
  attempt : Nat
  started_at : Nat
deriving DecidableEq, Repr

/-- `claimNextQueuedJob` (worker.js lines 1190-1226): refuses when the user
already has a processing job, otherwise selects the oldest queued job and
runs the conditional update `SET status = 'processing', started_at = ?,
last_error = NULL WHERE job_id = ? AND status = 'queued'`, treating zero
affected rows as no job claimed. -/
def claimNextQueuedJob (userId : String) (now : Nat) (s : Store) :
    Option Claimed × Store :=
  if 0 < processingCount userId s then
    (none, s)
  else
    match selectOldest (s.filter fun j =>
        decide (j.user_id = userId ∧ j.status = .queued)) with
    | none => (none, s)
    | some next =>
      let changes :=
        (s.filter fun j => decide (j.job_id = next.job_id ∧ j.status = .queued)).length
      if changes = 0 then
        (none, s)
      else
        (some { job_id := next.job_id, message_id := next.message_id,
                created_at := next.created_at, attempt := next.attempt,
                started_at := now },
         s.map fun j =>
           if decide (j.job_id = next.job_id ∧ j.status = .queued) then
             { j with status := .processing, started_at := some now,
                      last_error := none }
           else j)

/-- `requeueJob` (worker.js lines 1228-1238): unconditional single-row
update keyed by job_id; truncates the recorded error to 800 characters. -/
def requeueJob (jobId : String) (attempt : Nat) (lastError : Option String)
    (s : Store) : Store :=
  s.map fun j =>
    if decide (j.job_id = jobId) then
      { j with status := .queued, attempt := attempt, started_at := none,
               last_error := lastError.map trunc800 }
    else j

/-- Sort key for `ORDER BY finished_at DESC`: SQLite sorts NULL below every
integer, so descending order puts NULL rows last. -/
def finKey : Option Nat → Nat
  | none => 0
  | some t => t + 1

/-- Stable descending insertion: a row moves ahead only of rows with a
strictly smaller key, so equal keys keep rowid order. -/
def insertDesc (key : Job → Nat) (j : Job) : List Job → List Job
  | [] => [j]
  | k :: rest =>
    if key k < key j then j :: k :: rest else k :: insertDesc key j rest

/-- Stable descending sort realising `ORDER BY finished_at DESC`. -/
def sortDesc (key : Job → Nat) : List Job → List Job
  | [] => []
  | j :: rest => insertDesc key j (sortDesc key rest)

/-- `ORDER BY finished_at DESC` over job rows. -/
def sortByFinishedDesc (l : List Job) : List Job :=
  sortDesc (fun j => finKey j.finished_at) l

/-- `pruneDoneJobHistory` (worker.js lines 1240-1263): deletes the done
rows of the user whose job_id is not among the `keep` most recently
finished done rows. -/
def pruneDoneJobHistory (userId : String) (s : Store) (keep : Nat := 5) :
    Store :=
  let keepIds :=
    ((sortByFinishedDesc (s.filter fun j =>
        decide (j.user_id = userId ∧ j.status = .done))).take keep).map Job.job_id
  s.filter fun j =>
    decide ¬(j.user_id = userId ∧ j.status = .done ∧ j.job_id ∉ keepIds)

/-- The `UPDATE` half of `markJobDone` (worker.js lines 1268-1274). -/
def updateDoneRow (jobId : String) (now : Nat) (resultTF : Option String)
    (s : Store) : Store :=
  s.map fun j =>
    if decide (j.job_id = jobId) then
      { j with status := .done, finished_at := some now, result_tf := resultTF }
    else j

/-- `markJobDone` (worker.js lines 1265-1285): unconditional update keyed
by job_id stamping finished_at and result_tf, then a prune (keep 5) for the
owning user looked up from the updated table. -/
def markJobDone (jobId : String) (now : Nat) (resultTF : Option String)
    (s : Store) : Store :=
  let s1 := updateDoneRow jobId now resultTF s
  match s1.find? (fun j => decide (j.job_id = jobId)) with
  | some row => pruneDoneJobHistory row.user_id s1 5
  | none => s1

/-- `markJobError` (worker.js lines 1287-1297): unconditional update keyed
by job_id stamping finished_at and the truncated message. -/
def markJobError (jobId : String) (now : Nat) (errMsg : String) (s : Store) :
    Store :=
  s.map fun j =>
    if decide (j.job_id = jobId) then
      { j with status := .error, finished_at := some now,
               last_error := some (trunc800 errMsg) }
    else j

/-- `estimateSecondsPerImage` duration query (worker.js lines 1066-1080):
durations `finished_at - started_at` of the five most recently finished
done rows of the user having both timestamps with `finished_at >=
started_at`, then filtered to strictly positive values. Rationals model JS
numbers. -/
def completedDurations (userId : String) (s : Store) : List Nat :=
  (((sortByFinishedDesc (s.filter fun j =>
        decide (j.user_id = userId ∧ j.status = .done ∧
                j.started_at ≠ none ∧ j.finished_at ≠ none ∧
                finKey j.started_at ≤ finKey j.finished_at))).take 5).map
    (fun j => j.finished_at.getD 0 - j.started_at.getD 0)).filter
    (fun d => decide (0 < d))

/-- `estimateSecondsPerImage` (worker.js lines 1061-1092). `cfg` models
`Number(env.EST_SECONDS_PER_IMAGE || 45)`: `none` when the variable is
unset (so 45), `some v` for a numeric setting. The catch-all branch and
the missing-DB branch both return the fallback, so the function is total. -/
def estimateSecondsPerImage (cfg : Option ℚ) (userId : String) (s : Store) : ℚ :=
  let fallback := max 10 (cfg.getD 45)
  let durations := completedDurations userId s
  if durations.isEmpty then fallback
  else
    let avgMs := (durations.sum : ℚ) / (durations.length : ℚ)
    min 180 (max 15 (avgMs / 1000))

/-- The five job-store operations named by the spec data-model section:
enqueue, claimNext, requeue, markDone, markError. -/
inductive Op
  | enqueue (userId messageId : String) (now : Nat)
  | claimNext (userId : String) (now : Nat)
  | requeue (jobId : String) (attempt : Nat) (lastError : Option String)
  | markDone (jobId : String) (now : Nat) (resultTF : Option String)
  | markError (jobId : String) (now : Nat) (msg : String)
deriving DecidableEq, Repr

/-- Whether an operation is the claim operation. -/
def Op.isClaim : Op → Bool
  | .claimNext _ _ => true
  | _ => false

/-- Effect of one job-store operation on the table. -/
def applyOp (op : Op) (s : Store) : Store :=
  match op with
  | .enqueue u m now => (enqueueAnalysisJob u m now s).1
  | .claimNext u now => (claimNextQueuedJob u now s).2
  | .requeue jid a e => requeueJob jid a e s
  | .markDone jid now tf => markJobDone jid now tf s
  | .markError jid now msg => markJobError jid now msg s

/-- A sequence of job-store operations run against the initially empty
table. -/
def runOps (ops : List Op) : Store :=
  ops.foldl (fun s op => applyOp op s) []

/-- JS `x || dflt` on strings: the empty string models null/undefined. -/
def jsOr (a dflt : String) : String :=
  if a = "" then dflt else a

/-- Substring test on character lists (JS `String.prototype.includes`). -/
def startsWithL : List Char → List Char → Bool
  | [], _ => true
  | _ :: _, [] => false
  | a :: as, b :: bs => a == b && startsWithL as bs

/-- `hay.includes(needle)` (JS), by scanning every start position. -/
def containsL (needle : List Char) : List Char → Bool
  | [] => needle.isEmpty
  | h :: t => startsWithL needle (h :: t) || containsL needle t

/-- `msg.includes(needle)` for strings. -/
def strIncludes (hay needle : String) : Bool :=
  containsL needle.data hay.data

/-- Retryable-failure classification shared by worker.js line 1489 and
handlers.js line 786: the message mentions HTTP 429, 503 or 500. (The
worker.js variant additionally treats TimeoutError/AbortError as
retryable; handlers.js routes timeouts to the recovery path instead.) -/
def retryableMsg (msg : String) : Bool :=
  strIncludes msg "429" || strIncludes msg "503" || strIncludes msg "500"

/-- JS `String.prototype.toUpperCase`, character by character. -/
def strUpper (s : String) : String :=
  ⟨s.data.map Char.toUpper⟩

/-- JS `String.prototype.trim`: strip whitespace from both ends. -/
def strTrim (s : String) : String :=
  ⟨((s.data.dropWhile Char.isWhitespace).reverse.dropWhile
      Char.isWhitespace).reverse⟩

/-- `normalizeTF` (worker.js lines 138-151) for a non-empty argument: both
call sites embedded here pass `x || "Unknown_TF"`. The known-TF lookup
returns its argument unchanged in either branch, so it collapses. -/
def normalizeTF (tf : String) : String :=
  let t := strUpper (strTrim tf)
  if t = "D1" then "1D"
  else if t = "DAY" then "1D"
  else if t = "WEEK" then "1W"
  else if t = "HOUR" then "H1"
  else t

/-- The `trade_setup` object of a result payload; `none` fields model
absent JS properties. -/
structure TradeSetup where
  action : Option String
  confidence : Option String
  risk_flags : List String
deriving DecidableEq, Repr

/-- Structured analysis payload returned by the Gemini invocation
(`analyzeChartStructured`), with the fields the orchestration inspects;
passthrough technical fields (structure, value, trigger, indicators,
patterns, key_levels, raw_extraction, notes) are copied verbatim by the
code and omitted here. The trailing three fields model the
`_recovery_attempt`, `_analysis_timeout` and `_recovery_failed`
properties the timeout-recovery code would attach. The empty string
models a null/undefined `detected_tf`. -/
structure AnalysisResult where
  detected_tf : String
  tfs_used_for_confluence : List String
  request_update_for_tf : Option (List String)
  reasoning_trace : List String
  trend_bias : String
  trade_setup : Option TradeSetup
  recovery_attempt : Option Nat
  analysis_timeout : Bool
  recovery_failed : Bool
deriving DecidableEq, Repr

/-- Row shape written to the analysis result store by the persist step
(worker.js lines 1540-1565, handlers.js lines 846-871), restricted to the
fields the orchestration computes rather than copies. -/
structure StoredAnalysis where
  detected_tf : String
  request_update_for_tf : Option (List String)
  trend_bias : String
  trade_setup : TradeSetup
  reasoning_trace : List String
deriving DecidableEq, Repr

/-- The normalize-and-force-WAIT persist transformation (worker.js lines
1540-1565, handlers.js lines 846-871): when the payload requests fresher
input for some timeframe, the stored recommendation is forced to WAIT with
Low confidence and an explanatory trace entry is appended. -/
def toStore (r : AnalysisResult) : StoredAnalysis :=
  let base : StoredAnalysis :=
    { detected_tf := normalizeTF (jsOr r.detected_tf "Unknown_TF"),
      request_update_for_tf := r.request_update_for_tf,
      trend_bias := jsOr r.trend_bias "Unknown",
      trade_setup := r.trade_setup.getD
        { action := none, confidence := none, risk_flags := [] },
      reasoning_trace := r.reasoning_trace }
  match r.request_update_for_tf with
  | some l =>
    if 0 < l.length then
      { base with
        trade_setup := { base.trade_setup with
          action := some "WAIT", confidence := some "Low" },
        reasoning_trace := base.reasoning_trace ++
          ["Decision: WAIT (ต้องการภาพ TF เพิ่มเติม: " ++
            String.intercalate ", " l ++ ")"] }
    else base
  | none => base

/-- How the image fast path of the monolithic `handleEvent` ends. -/
inductive FastOutcome
  | warnedOnly
  | requeuedToBackground
  | saved (st : StoredAnalysis)
deriving DecidableEq, Repr

/-- The tail of the image fast path in `handleEvent` (worker.js lines
434-509), after the direct `UPDATE ... SET status = 'processing'` of line
426 has already been applied to `s`. `analysis = none` models the
invocation throwing or timing out (the catch at line 444 requeues the job
with attempt 1). When the payload requests fresher timeframes (line 460),
the handler replies a warning and returns: the `markJobDone` on line 472
sits after the `return` and is dead code, so the job store is untouched.
Otherwise the result is saved to the result store; this path never calls
`markJobDone` either. -/
def handleEventFastPath (analysis : Option AnalysisResult) (jobId : String)
    (s : Store) : Store × FastOutcome :=
  match analysis with
  | none =>
    (requeueJob jobId 1 (some "Foreground timeout -> background") s,
     .requeuedToBackground)
  | some r =>
    match r.request_update_for_tf with
    | some l =>
      if 0 < l.length then (s, .warnedOnly)
      else (s, .saved (toStore r))
    | none => (s, .saved (toStore r))

/-- Tag of one step of the retry loop of claim C3. -/
inductive StepTag
  | requeued
  | errored
  | idle
deriving DecidableEq, Repr

/-- One processor invocation whose analysis call fails with message `msg`:
claim, then the retry decision of worker.js lines 1491-1513 / handlers.js
lines 786-831 (`if (retryable && nextAttempt <= maxAttempts)` requeue,
else mark error). -/
def retryStep (userId msg : String) (maxAttempts now : Nat) (s : Store) :
    Store × StepTag :=
  match claimNextQueuedJob userId now s with
  | (none, s1) => (s1, .idle)
  | (some c, s1) =>
    if retryableMsg msg ∧ c.attempt + 1 ≤ maxAttempts then
      (requeueJob c.job_id (c.attempt + 1) (some msg) s1, .requeued)
    else
      (markJobError c.job_id now msg s1, .errored)

/-- `k` chained invocations of the always-failing processor: the store
after the run and the per-invocation tags in order. -/
def retryRun (userId msg : String) (maxAttempts now : Nat) :
    Nat → Store → Store × List StepTag
  | 0, s => (s, [])
  | k + 1, s =>
    let step := retryStep userId msg maxAttempts now s
    let rest := retryRun userId msg maxAttempts now k step.1
    (rest.1, step.2 :: rest.2)

/-- Draining loop of the FIFO test property: repeated
claimNext+markDone cycles, recording claimed job ids in order. -/
def drainRun (userId : String) (now : Nat) : Nat → Store → Store × List String
  | 0, s => (s, [])
  | k + 1, s =>
    match claimNextQueuedJob userId now s with
    | (none, s1) => (s1, [])
    | (some c, s1) =>
      let rest := drainRun userId now k (markJobDone c.job_id now none s1)
      (rest.1, c.job_id :: rest.2)

/-- `SELECT COUNT(*)` of the done rows of a user. -/
def doneCount (userId : String) (s : Store) : Nat :=
  (s.filter fun j => decide (j.user_id = userId ∧ j.status = .done)).length

/-- Representation invariant of the job table: job_id is a primary key
(rows have pairwise distinct ids) and every user has at most one
processing row. -/
def StoreInv (s : Store) : Prop :=
  (s.map Job.job_id).Nodup ∧ ∀ u, processingCount u s ≤ 1

/-- The job-store effect of one invocation of the modular
`handleInternalAnalyze` (handlers.js lines 586-663): the invocation
claims at most one job, writes markers to the result store, fires
`triggerAsyncJobProcessing` (a fresh HTTP invocation of the same
endpoint) and returns; `performAnalysisInBackground` (handlers.js line
666), the only code holding the timeout-recovery and fallback logic, is
unexported and has no call site, so the invocation never processes the
claimed job and mutates the job table only through the claim. -/
def handleInternalAnalyzeStoreStep (userId : String) (now : Nat)
    (s : Store) : Store :=
  (claimNextQueuedJob userId now s).2

/-- A chain of `k` such invocations, each triggered by the previous
one. -/
def handleInternalAnalyzeChain (userId : String) (now : Nat) :
    Nat → Store → Store
  | 0, s => s
  | k + 1, s =>
    handleInternalAnalyzeChain userId now k
      (handleInternalAnalyzeStoreStep userId now s)

/-- The failure classification of the monolithic `handleInternalAnalyze`
(worker.js lines 1486-1489): TimeoutError/AbortError are retryable, as
are messages mentioning 429, 503 or 500. -/
def workerRetryable (timedOut : Bool) (msg : String) : Bool :=
  timedOut || retryableMsg msg

/-- One invocation of the monolithic processor when the analysis call
times out with message `msg` (worker.js lines 1427 and 1484-1534):
claim, then requeue with an incremented attempt while the budget holds
(a timeout is retryable there), else mark the job error. -/
def workerTimeoutStep (userId msg : String) (maxAttempts now : Nat)
    (s : Store) : Store × StepTag :=
  match claimNextQueuedJob userId now s with
  | (none, s1) => (s1, .idle)
  | (some c, s1) =>
    if workerRetryable true msg ∧ c.attempt + 1 ≤ maxAttempts then
      (requeueJob c.job_id (c.attempt + 1) (some msg) s1, .requeued)
    else
      (markJobError c.job_id now msg s1, .errored)

section Smoke
example :
    (enqueueAnalysisJob "U1234567" "M1" 0 []).2.1 = "0_234567_M1" := by decide
example :
    (claimNextQueuedJob "U" 7 (enqueueAnalysisJob "U" "M1" 3 []).1).1 =
      some { job_id := "3_U_M1", message_id := "M1", created_at := 3,
             attempt := 0, started_at := 7 } := by decide
example : estimateSecondsPerImage (some 5) "U" [] = 10 := by decide
example : retryableMsg "HTTP 429 rate limited" = true := by decide
end Smoke

/-! ## Helper lemmas about the embedded operations -/

/-- `selectOldest` returns an element of its input list. -/
theorem selectOldest_mem : ∀ {l : List Job} {j : Job},
    selectOldest l = some j → j ∈ l := by
  intro l
  induction l with
  | nil => intro j h; simp [selectOldest] at h
  | cons a rest ih =>
    intro j h
    cases hrest : selectOldest rest with
    | none => simp only [selectOldest, hrest] at h; simp_all
    | some k =>
      simp only [selectOldest, hrest] at h
      by_cases hle : a.created_at ≤ k.created_at
      · rw [if_pos hle] at h
        simp_all
      · rw [if_neg hle] at h
        obtain rfl : k = j := by simpa using h
        exact List.mem_cons_of_mem a (ih hrest)

/-- `selectOldest` selects the first row carrying the minimal
`created_at`: strictly later-created rows precede it, no earlier-created
row follows it. -/
theorem selectOldest_spec : ∀ {l : List Job} {j : Job},
    selectOldest l = some j →
    ∃ pre post, l = pre ++ j :: post ∧
      (∀ k ∈ pre, j.created_at < k.created_at) ∧
      (∀ k ∈ post, j.created_at ≤ k.created_at) := by
  intro l
  induction l with
  | nil => intro j h; simp [selectOldest] at h
  | cons a rest ih =>
    intro j h
    cases hrest : selectOldest rest with
    | none =>
      simp only [selectOldest, hrest] at h
      cases rest with
      | nil =>
        refine ⟨[], [], ?_, ?_, ?_⟩ <;> simp_all
      | cons b bs =>
        exfalso
        cases hbs : selectOldest bs with
        | none => simp [selectOldest, hbs] at hrest
        | some m =>
          simp only [selectOldest, hbs] at hrest
          by_cases hbm : b.created_at ≤ m.created_at
          · rw [if_pos hbm] at hrest; simp at hrest
          · rw [if_neg hbm] at hrest; simp at hrest
    | some k =>
      simp only [selectOldest, hrest] at h
      obtain ⟨pre, post, hsplit, hpre, hpost⟩ := ih hrest
      by_cases hle : a.created_at ≤ k.created_at
      · rw [if_pos hle] at h
        obtain rfl : a = j := by simpa using h
        refine ⟨[], rest, rfl, by simp, ?_⟩
        intro m hm
        rw [hsplit] at hm
        rcases List.mem_append.1 hm with hm | hm
        · exact le_trans hle (le_of_lt (hpre m hm))
        · rcases List.mem_cons.1 hm with rfl | hm
          · exact hle
          · exact le_trans hle (hpost m hm)
      · rw [if_neg hle] at h
        obtain rfl : k = j := by simpa using h
        refine ⟨a :: pre, post, by rw [hsplit]; simp, ?_, hpost⟩
        intro m hm
        rcases List.mem_cons.1 hm with rfl | hm
        · exact lt_of_not_ge hle
        · exact hpre m hm

/-- Rows are uniquely determined by job_id when job_ids are Nodup. -/
theorem job_id_unique {s : Store} (hnd : (s.map Job.job_id).Nodup)
    {x y : Job} (hx : x ∈ s) (hy : y ∈ s) (hid : x.job_id = y.job_id) :
    x = y :=
  List.inj_on_of_nodup_map hnd hx hy hid

/-- Successful-claim elimination: the shape of the claim and of the
updated table. -/
theorem claimNext_eq_some {u : String} {now : Nat} {s : Store} {c : Claimed}
    {s' : Store} (h : claimNextQueuedJob u now s = (some c, s')) :
    processingCount u s = 0 ∧
    ∃ next, selectOldest (s.filter fun j =>
        decide (j.user_id = u ∧ j.status = .queued)) = some next ∧
      c = { job_id := next.job_id, message_id := next.message_id,
            created_at := next.created_at, attempt := next.attempt,
            started_at := now } ∧
      s' = s.map fun j =>
        if decide (j.job_id = next.job_id ∧ j.status = .queued) then
          { j with status := .processing, started_at := some now,
                   last_error := none }
        else j := by
  unfold claimNextQueuedJob at h
  split at h
  · exact absurd h (by simp)
  · next hpc =>
    refine ⟨by omega, ?_⟩
    split at h
    · exact absurd h (by simp)
    · next next hsel =>
      dsimp only at h
      split at h
      · exact absurd h (by simp)
      · obtain ⟨h1, h2⟩ := Prod.mk.injEq .. ▸ h
        exact ⟨next, hsel, (Option.some.inj h1).symm, h2.symm⟩

/-- The updated table of a claim attempt: either untouched, or the
conditional update applied for a job that was queued for the user. -/
theorem claimNext_store_shape (u : String) (now : Nat) (s : Store) :
    (claimNextQueuedJob u now s).2 = s ∨
    (processingCount u s = 0 ∧
      ∃ next, next ∈ s ∧ next.user_id = u ∧ next.status = .queued ∧
      (claimNextQueuedJob u now s).2 = s.map fun j =>
        if decide (j.job_id = next.job_id ∧ j.status = .queued) then
          { j with status := .processing, started_at := some now,
                   last_error := none }
        else j) := by
  unfold claimNextQueuedJob
  split
  · exact Or.inl rfl
  · next hpc =>
    split
    · exact Or.inl rfl
    · next next hsel =>
      dsimp only
      split
      · exact Or.inl rfl
      · have hmem := selectOldest_mem hsel
        have hq : next.user_id = u ∧ next.status = .queued := by
          simpa using (List.mem_filter.1 hmem).2
        exact Or.inr ⟨by omega,
          next, (List.mem_filter.1 hmem).1, hq.1, hq.2, rfl⟩

/-! ## Claim C10 -/

/-- C10: when `claimNextQueuedJob` successfully claims a job, the claimed
row is set to processing, `started_at` is stamped, and `last_error` is
reset to NULL, so an error recorded by a prior requeue of the same job is
erased as soon as the next attempt starts. -/
theorem claimNext_clears_last_error (u : String) (now : Nat) (s : Store)
    (hnd : (s.map Job.job_id).Nodup) (c : Claimed) (s' : Store)
    (h : claimNextQueuedJob u now s = (some c, s')) (j : Job) (hj : j ∈ s')
    (hid : j.job_id = c.job_id) :
    j.status = .processing ∧ j.started_at = some now ∧ j.last_error = none := by
  obtain ⟨hpc, next, hsel, hc, hs'⟩ := claimNext_eq_some h
  subst hc; subst hs'
  obtain ⟨x, hx, rfl⟩ := List.mem_map.1 hj
  have hmem := selectOldest_mem hsel
  have hnexts : next ∈ s := (List.mem_filter.1 hmem).1
  have hq : next.user_id = u ∧ next.status = .queued := by
    simpa using (List.mem_filter.1 hmem).2
  by_cases hcond : x.job_id = next.job_id ∧ x.status = .queued
  · rw [if_pos (decide_eq_true hcond)]
    exact ⟨rfl, rfl, rfl⟩
  · rw [if_neg (by simpa using hcond)] at hid ⊢
    have hxid : x.job_id = next.job_id := by simpa using hid
    have hxe : x = next := job_id_unique hnd hx hnexts hxid
    exact absurd ⟨hxid, by rw [hxe]; exact hq.2⟩ hcond

/-- Witness for C10 at a concrete store: a queued job carrying a previous
requeue error is claimed, and the claimed row shows processing status, the
new started_at, and no last_error. -/
theorem claimNext_clears_last_error_witness :
    ({ job_id := "J1", user_id := "U7", message_id := "M7", created_at := 1,
       status := .processing, attempt := 0, started_at := some 9,
       finished_at := none, result_tf := none, last_error := none } : Job).status =
        .processing ∧
    ({ job_id := "J1", user_id := "U7", message_id := "M7", created_at := 1,
       status := .processing, attempt := 0, started_at := some 9,
       finished_at := none, result_tf := none, last_error := none } : Job).started_at =
        some 9 ∧
    ({ job_id := "J1", user_id := "U7", message_id := "M7", created_at := 1,
       status := .processing, attempt := 0, started_at := some 9,
       finished_at := none, result_tf := none, last_error := none } : Job).last_error =
        none :=
  claimNext_clears_last_error "U7" 9
    [{ job_id := "J1", user_id := "U7", message_id := "M7", created_at := 1,
       status := .queued, attempt := 0, started_at := none,
       finished_at := none, result_tf := none,
       last_error := some "earlier failure" }]
    (by decide)
    { job_id := "J1", message_id := "M7", created_at := 1, attempt := 0,
      started_at := 9 }
    [{ job_id := "J1", user_id := "U7", message_id := "M7", created_at := 1,
       status := .processing, attempt := 0, started_at := some 9,
       finished_at := none, result_tf := none, last_error := none }]
    (by decide)
    { job_id := "J1", user_id := "U7", message_id := "M7", created_at := 1,
      status := .processing, attempt := 0, started_at := some 9,
      finished_at := none, result_tf := none, last_error := none }
    (by decide) (by decide)

/-! ## Claim C2 -/

/-- C2: `claimNextQueuedJob` always selects the oldest queued job of the
user (minimal `created_at`, ties broken by insertion order: strictly
younger queued rows precede the selected one, no strictly older queued row
follows it); consequently enqueueing A, B, C in that order and draining by
repeated claimNext+markDone cycles claims and completes them in order
A, B, C. -/
theorem fifo_claim_order :
    (∀ (u : String) (now : Nat) (s : Store) (c : Claimed) (s' : Store),
      claimNextQueuedJob u now s = (some c, s') →
      ∃ pre j post,
        s.filter (fun x => decide (x.user_id = u ∧ x.status = .queued)) =
          pre ++ j :: post ∧
        j.job_id = c.job_id ∧ j.created_at = c.created_at ∧
        (∀ k ∈ pre, j.created_at < k.created_at) ∧
        (∀ k ∈ post, j.created_at ≤ k.created_at)) ∧
    ((drainRun "U1" 10 3 (enqueueAnalysisJob "U1" "C" 3
        (enqueueAnalysisJob "U1" "B" 2
          (enqueueAnalysisJob "U1" "A" 1 []).1).1).1).2 =
      [makeJobId 1 "U1" "A", makeJobId 2 "U1" "B", makeJobId 3 "U1" "C"] ∧
     ((drainRun "U1" 10 3 (enqueueAnalysisJob "U1" "C" 3
        (enqueueAnalysisJob "U1" "B" 2
          (enqueueAnalysisJob "U1" "A" 1 []).1).1).1).1).map Job.status =
      [.done, .done, .done]) := by
  constructor
  · intro u now s c s' h
    obtain ⟨hpc, next, hsel, hc, hs'⟩ := claimNext_eq_some h
    subst hc
    obtain ⟨pre, post, hsplit, hpre, hpost⟩ := selectOldest_spec hsel
    exact ⟨pre, next, post, hsplit, rfl, rfl, hpre, hpost⟩
  · constructor
    · decide
    · decide

/-! ## Claim C6 -/

/-- Counterexample to C6 as stated: `requeueJob` carries no status
predicate (`UPDATE ... WHERE job_id = ?`), so applied to a job whose
status is done it transitions the job backward to queued. -/
theorem requeue_unguarded_moves_done_to_queued :
    requeueJob "J1" 1 (some "e")
      [{ job_id := "J1", user_id := "U1", message_id := "M1", created_at := 0,
         status := .done, attempt := 0, started_at := some 3,
         finished_at := some 9, result_tf := some "1D", last_error := none }] =
      [{ job_id := "J1", user_id := "U1", message_id := "M1", created_at := 0,
         status := .queued, attempt := 1, started_at := none,
         finished_at := some 9, result_tf := some "1D",
         last_error := some "e" }] := by
  decide

/-- C6 amended: terminal rows are final under the claim operation (whose
update touches only rows with status queued and whose zero-affected-rows
outcome returns no claim) and under enqueue; requeue and markError are
unconditional single-row updates keyed by job_id that leave every other
row untouched, but carry no status guard of their own. -/
theorem terminal_final_amended :
    (∀ (s : Store) (u : String) (now : Nat) (j : Job), j ∈ s →
      j.status = .done ∨ j.status = .error →
      j ∈ (claimNextQueuedJob u now s).2) ∧
    (∀ (s : Store) (u m : String) (now : Nat) (j : Job), j ∈ s →
      j ∈ (enqueueAnalysisJob u m now s).1) ∧
    (∀ (s : Store) (jid : String) (a : Nat) (e : Option String) (j : Job),
      j ∈ s → j.job_id ≠ jid → j ∈ requeueJob jid a e s) ∧
    (∀ (s : Store) (jid : String) (now : Nat) (msg : String) (j : Job),
      j ∈ s → j.job_id ≠ jid → j ∈ markJobError jid now msg s) := by
  refine ⟨?_, ?_, ?_, ?_⟩
  · intro s u now j hj hterm
    rcases claimNext_store_shape u now s with hsame | ⟨-, next, -, -, -, hmap⟩
    · rw [hsame]; exact hj
    · rw [hmap]
      have hj' : ¬(j.job_id = next.job_id ∧ j.status = .queued) := by
        rintro ⟨-, hq⟩
        rcases hterm with h | h <;> rw [hq] at h <;> exact JStatus.noConfusion h
      have : (if decide (j.job_id = next.job_id ∧ j.status = .queued) = true then
          { j with status := .processing, started_at := some now,
                   last_error := none } else j) = j := by
        rw [if_neg (by simpa using hj')]
      exact this ▸ List.mem_map_of_mem _ hj
  · intro s u m now j hj
    unfold enqueueAnalysisJob
    dsimp only
    split
    · exact hj
    · exact List.mem_append_left _ hj
  · intro s jid a e j hj hne
    unfold requeueJob
    have : (if decide (j.job_id = jid) = true then
        { j with status := .queued, attempt := a, started_at := none,
                 last_error := e.map trunc800 } else j) = j := by
      rw [if_neg (by simpa using hne)]
    exact this ▸ List.mem_map_of_mem _ hj
  · intro s jid now msg j hj hne
    unfold markJobError
    have : (if decide (j.job_id = jid) = true then
        { j with status := .error, finished_at := some now,
                 last_error := some (trunc800 msg) } else j) = j := by
      rw [if_neg (by simpa using hne)]
    exact this ▸ List.mem_map_of_mem _ hj

/-- Witness for C6 amended: a done row survives a claim attempt and an
enqueue, and rows with a different job id survive requeue and markError,
at a concrete store. -/
theorem terminal_final_amended_witness :
    ({ job_id := "JD", user_id := "U1", message_id := "M0", created_at := 0,
       status := .done, attempt := 0, started_at := some 1,
       finished_at := some 2, result_tf := some "1D",
       last_error := none } : Job) ∈
      (claimNextQueuedJob "U1" 9
        [{ job_id := "JD", user_id := "U1", message_id := "M0",
           created_at := 0, status := .done, attempt := 0,
           started_at := some 1, finished_at := some 2,
           result_tf := some "1D", last_error := none },
         { job_id := "JQ", user_id := "U1", message_id := "M1",
           created_at := 5, status := .queued, attempt := 0,
           started_at := none, finished_at := none, result_tf := none,
           last_error := none }]).2 ∧
    ({ job_id := "JD", user_id := "U1", message_id := "M0", created_at := 0,
       status := .done, attempt := 0, started_at := some 1,
       finished_at := some 2, result_tf := some "1D",
       last_error := none } : Job) ∈
      (requeueJob "JQ" 1 none
        [{ job_id := "JD", user_id := "U1", message_id := "M0",
           created_at := 0, status := .done, attempt := 0,
           started_at := some 1, finished_at := some 2,
           result_tf := some "1D", last_error := none }]) :=
  ⟨terminal_final_amended.1
      [{ job_id := "JD", user_id := "U1", message_id := "M0", created_at := 0,
         status := .done, attempt := 0, started_at := some 1,
         finished_at := some 2, result_tf := some "1D", last_error := none },
       { job_id := "JQ", user_id := "U1", message_id := "M1", created_at := 5,
         status := .queued, attempt := 0, started_at := none,
         finished_at := none, result_tf := none, last_error := none }]
      "U1" 9 _ (by decide) (by decide),
   (terminal_final_amended.2.2.1)
      [{ job_id := "JD", user_id := "U1", message_id := "M0", created_at := 0,
         status := .done, attempt := 0, started_at := some 1,
         finished_at := some 2, result_tf := some "1D", last_error := none }]
      "JQ" 1 none _ (by decide) (by decide)⟩

/-! ## Claim C5 -/

/-- Counterexample to C5 as stated: `makeJobId` embeds `Date.now()`, so
enqueueing the same (user, source message) at two different timestamps
inserts two distinct rows, and the second call returns a job id different
from the first. -/
theorem enqueue_not_idempotent_across_timestamps :
    ((enqueueAnalysisJob "U1234567" "M1" 1
        (enqueueAnalysisJob "U1234567" "M1" 0 []).1).1).length = 2 ∧
    (enqueueAnalysisJob "U1234567" "M1" 1
        (enqueueAnalysisJob "U1234567" "M1" 0 []).1).2.1 ≠
      (enqueueAnalysisJob "U1234567" "M1" 0 []).2.1 := by
  constructor
  · decide
  · decide

/-- C5 amended: enqueue is idempotent per (user, source message, enqueue
timestamp): a second call in the same millisecond leaves the table
unchanged, returns the same job id and created_at as the first call, and
when the id was fresh the two calls together leave exactly one row with
that id. The `INSERT OR IGNORE` never fails on a duplicate. -/
theorem enqueue_idempotent_same_timestamp (u m : String) (now : Nat)
    (s : Store) :
    (enqueueAnalysisJob u m now (enqueueAnalysisJob u m now s).1).1 =
      (enqueueAnalysisJob u m now s).1 ∧
    (enqueueAnalysisJob u m now (enqueueAnalysisJob u m now s).1).2 =
      (enqueueAnalysisJob u m now s).2 ∧
    ((s.countP fun j => decide (j.job_id = makeJobId now u m)) = 0 →
      ((enqueueAnalysisJob u m now s).1.countP fun j =>
        decide (j.job_id = makeJobId now u m)) = 1) := by
  by_cases hany : s.any (fun j => decide (j.job_id = makeJobId now u m)) = true
  · have h1 : enqueueAnalysisJob u m now s = (s, makeJobId now u m, now) := by
      unfold enqueueAnalysisJob
      rw [if_pos hany]
    refine ⟨?_, ?_, ?_⟩
    · simp only [h1]
    · simp only [h1]
    · intro hcnt
      exfalso
      obtain ⟨j, hj, hjd⟩ := List.any_eq_true.1 hany
      exact List.countP_eq_zero.1 hcnt j hj hjd
  · have h1 : enqueueAnalysisJob u m now s =
        (s ++ [newJobRow u m now], makeJobId now u m, now) := by
      unfold enqueueAnalysisJob
      rw [if_neg hany]
    have hany2 : (s ++ [newJobRow u m now]).any
        (fun j => decide (j.job_id = makeJobId now u m)) = true := by
      simp [newJobRow]
    have h2 : enqueueAnalysisJob u m now (s ++ [newJobRow u m now]) =
        (s ++ [newJobRow u m now], makeJobId now u m, now) := by
      unfold enqueueAnalysisJob
      rw [if_pos hany2]
    refine ⟨?_, ?_, ?_⟩
    · simp only [h1, h2]
    · simp only [h1, h2]
    · intro hcnt
      simp only [h1]
      rw [List.countP_append, hcnt]
      simp [newJobRow]

/-- Witness for C5 amended at a concrete input: two same-millisecond
enqueues of the same message leave one row and return identical pairs. -/
theorem enqueue_idempotent_same_timestamp_witness :
    (enqueueAnalysisJob "U9" "M9" 4 (enqueueAnalysisJob "U9" "M9" 4 []).1).1 =
      (enqueueAnalysisJob "U9" "M9" 4 []).1 ∧
    (enqueueAnalysisJob "U9" "M9" 4 (enqueueAnalysisJob "U9" "M9" 4 []).1).2 =
      (enqueueAnalysisJob "U9" "M9" 4 []).2 ∧
    ((enqueueAnalysisJob "U9" "M9" 4 []).1.countP fun j =>
        decide (j.job_id = makeJobId 4 "U9" "M9")) = 1 :=
  ⟨(enqueue_idempotent_same_timestamp "U9" "M9" 4 []).1,
   (enqueue_idempotent_same_timestamp "U9" "M9" 4 []).2.1,
   (enqueue_idempotent_same_timestamp "U9" "M9" 4 []).2.2 (by decide)⟩

/-- Witness for C2 at a concrete store with two queued jobs: the claimed
job is the oldest queued one. -/
theorem fifo_claim_order_witness :
    ∃ pre j post,
      ([{ job_id := "JW", user_id := "U2", message_id := "MW",
          created_at := 5, status := .queued, attempt := 0,
          started_at := none, finished_at := none, result_tf := none,
          last_error := none },
        { job_id := "JX", user_id := "U2", message_id := "MX",
          created_at := 8, status := .queued, attempt := 0,
          started_at := none, finished_at := none, result_tf := none,
          last_error := none }] : Store).filter
          (fun x => decide (x.user_id = "U2" ∧ x.status = .queued)) =
        pre ++ j :: post ∧
      j.job_id = "JW" ∧ j.created_at = 5 ∧
      (∀ k ∈ pre, j.created_at < k.created_at) ∧
      (∀ k ∈ post, j.created_at ≤ k.created_at) :=
  fifo_claim_order.1 "U2" 9
    [{ job_id := "JW", user_id := "U2", message_id := "MW", created_at := 5,
       status := .queued, attempt := 0, started_at := none,
       finished_at := none, result_tf := none, last_error := none },
     { job_id := "JX", user_id := "U2", message_id := "MX", created_at := 8,
       status := .queued, attempt := 0, started_at := none,
       finished_at := none, result_tf := none, last_error := none }]
    { job_id := "JW", message_id := "MW", created_at := 5, attempt := 0,
      started_at := 9 }
    [{ job_id := "JW", user_id := "U2", message_id := "MW", created_at := 5,
       status := .processing, attempt := 0, started_at := some 9,
       finished_at := none, result_tf := none, last_error := none },
     { job_id := "JX", user_id := "U2", message_id := "MX", created_at := 8,
       status := .queued, attempt := 0, started_at := none,
       finished_at := none, result_tf := none, last_error := none }]
    (by decide)

/-! ## Claim C9 -/

/-- Counterexample to C9 as stated: with no completion history the
estimator returns `Math.max(10, configured)` rather than the configured
default itself; configuring 5 seconds per image yields 10. -/
theorem estimate_ignores_low_config :
    estimateSecondsPerImage (some 5) "U" [] = 10 ∧ (10 : ℚ) ≠ 5 := by
  constructor
  · decide
  · decide

/-- C9 amended: with no usable completion history the estimate equals the
configured default clamped below at 10 (45 when the variable is unset);
with history it is the average of the collected durations converted to
seconds and clamped into [15, 180]. The estimator is a pure function of
the table: it mutates nothing and returns a value for every input. -/
theorem estimate_clamped_fallback_and_range (cfg : Option ℚ) (u : String)
    (s : Store) :
    (completedDurations u s = [] →
      estimateSecondsPerImage cfg u s = max 10 (cfg.getD 45)) ∧
    (completedDurations u s ≠ [] →
      estimateSecondsPerImage cfg u s =
        min 180 (max 15 (((completedDurations u s).sum : ℚ) /
          ((completedDurations u s).length : ℚ) / 1000)) ∧
      15 ≤ estimateSecondsPerImage cfg u s ∧
      estimateSecondsPerImage cfg u s ≤ 180) := by
  constructor
  · intro h
    simp [estimateSecondsPerImage, h]
  · intro h
    have hne : (completedDurations u s).isEmpty = false := by
      cases hd : completedDurations u s with
      | nil => exact absurd hd h
      | cons a l => rfl
    refine ⟨by simp [estimateSecondsPerImage, hne], ?_, ?_⟩
    · simp only [estimateSecondsPerImage, hne]
      exact le_min (by norm_num) (le_max_left _ _)
    · simp only [estimateSecondsPerImage, hne]
      exact min_le_left _ _

/-- Witness for C9 amended: the no-history branch at configured value 5,
and the history branch for a single 20-second completion (estimate 20,
inside the clamp range). -/
theorem estimate_clamped_fallback_and_range_witness :
    estimateSecondsPerImage (some 5) "UZ" [] = max 10 ((some (5 : ℚ)).getD 45) ∧
    (15 ≤ estimateSecondsPerImage none "UZ"
        [{ job_id := "JZ", user_id := "UZ", message_id := "MZ",
           created_at := 0, status := .done, attempt := 0,
           started_at := some 1000, finished_at := some 21000,
           result_tf := some "H4", last_error := none }] ∧
      estimateSecondsPerImage none "UZ"
        [{ job_id := "JZ", user_id := "UZ", message_id := "MZ",
           created_at := 0, status := .done, attempt := 0,
           started_at := some 1000, finished_at := some 21000,
           result_tf := some "H4", last_error := none }] ≤ 180) :=
  ⟨(estimate_clamped_fallback_and_range (some 5) "UZ" []).1 (by decide),
   ((estimate_clamped_fallback_and_range none "UZ"
      [{ job_id := "JZ", user_id := "UZ", message_id := "MZ",
         created_at := 0, status := .done, attempt := 0,
         started_at := some 1000, finished_at := some 21000,
         result_tf := some "H4", last_error := none }]).2 (by decide)).2⟩

/-! ## Claim C7 -/

/-- C7 against the code at the failing input (the image fast path of the
monolithic `handleEvent`, worker.js lines 459-474): when the analysis
payload requests fresher input for a timeframe, the handler replies a
warning and returns; the `markJobDone` on line 472 is dead code behind the
`return`, so nothing is persisted and the job row stays processing instead
of completing with a forced WAIT result. -/
theorem fastpath_request_update_leaves_job_processing :
    handleEventFastPath
      (some { detected_tf := "H4", tfs_used_for_confluence := [],
              request_update_for_tf := some ["1D"],
              reasoning_trace := ["trace"], trend_bias := "Bearish",
              trade_setup := some { action := some "SELL",
                                    confidence := some "High",
                                    risk_flags := [] },
              recovery_attempt := none, analysis_timeout := false,
              recovery_failed := false })
      "J7"
      [{ job_id := "J7", user_id := "U7", message_id := "M7",
         created_at := 1, status := .processing, attempt := 0,
         started_at := some 2, finished_at := none, result_tf := none,
         last_error := none }] =
      ([{ job_id := "J7", user_id := "U7", message_id := "M7",
          created_at := 1, status := .processing, attempt := 0,
          started_at := some 2, finished_at := none, result_tf := none,
          last_error := none }], .warnedOnly) := by
  decide

/-! ## Claim C4 -/

/-- Every row of the updated table carrying the completed job id shows the
done status, the finished_at stamp, and the recorded result_tf (the row
itself may afterwards be pruned, in which case nothing carries the id). -/
theorem markJobDone_id_status (jid : String) (now : Nat) (tf : Option String)
    (s : Store) :
    ∀ k ∈ markJobDone jid now tf s, k.job_id = jid →
      k.status = .done ∧ k.finished_at = some now ∧ k.result_tf = tf := by
  intro k hk hkid
  have hk1 : k ∈ updateDoneRow jid now tf s := by
    cases hf : (updateDoneRow jid now tf s).find?
        (fun j => decide (j.job_id = jid)) with
    | none => simp only [markJobDone, hf] at hk; exact hk
    | some row =>
      simp only [markJobDone, hf, pruneDoneJobHistory] at hk
      exact List.mem_of_mem_filter hk
  unfold updateDoneRow at hk1
  obtain ⟨x, hx, rfl⟩ := List.mem_map.1 hk1
  by_cases hcond : x.job_id = jid
  · rw [if_pos (decide_eq_true hcond)]
    exact ⟨rfl, rfl, rfl⟩
  · rw [if_neg (by simpa using hcond)] at hkid ⊢
    exact absurd hkid hcond

/-- A user with a processing row makes the claim operation return none
and leave the table unchanged. -/
theorem claimNext_busy (u : String) (now : Nat) (s : Store)
    (h : 0 < processingCount u s) :
    claimNextQueuedJob u now s = (none, s) := by
  unfold claimNextQueuedJob
  rw [if_pos h]

/-- Chained invocations of the modular internal-analyze endpoint never
change a table whose user already has a processing row: each one claims
nothing and only re-fires the next invocation. -/
theorem chain_stuck (u : String) (now : Nat) :
    ∀ (k : Nat) (s : Store), 0 < processingCount u s →
      handleInternalAnalyzeChain u now k s = s := by
  intro k
  induction k with
  | zero =>
    intro s h
    rfl
  | succ k ih =>
    intro s h
    show handleInternalAnalyzeChain u now k
      (handleInternalAnalyzeStoreStep u now s) = s
    rw [show handleInternalAnalyzeStoreStep u now s = s from by
      unfold handleInternalAnalyzeStoreStep
      rw [claimNext_busy u now s h]]
    exact ih s h

/-- C4 against the code at the failing input. Modular pipeline
(handlers.js): the internal-analyze invocation claims the freshly
enqueued job and only re-fires the endpoint — the unexported, uncalled
`performAnalysisInBackground` holds the recovery/fallback logic — so
after the first invocation the job is processing and every longer chain
of invocations leaves it processing: it never reaches done and is stuck
in processing. Monolithic pipeline (worker.js): a timeout is classified
retryable, so with attempt budget left the invocation requeues instead
of synthesizing a fallback, and with the budget exhausted it marks the
job error — the job reaches error because of a timeout. -/
theorem timeout_jobs_stall_or_error :
    (∀ k : Nat,
      (handleInternalAnalyzeChain "U4" 9 (k + 1)
          (enqueueAnalysisJob "U4" "M4" 1 []).1).map Job.status =
        [JStatus.processing]) ∧
    workerRetryable true "The operation timed out" = true ∧
    workerTimeoutStep "U4" "The operation timed out" 3 9
        [{ job_id := "J", user_id := "U4", message_id := "M4",
           created_at := 1, status := .queued, attempt := 0,
           started_at := none, finished_at := none, result_tf := none,
           last_error := none }] =
      ([{ job_id := "J", user_id := "U4", message_id := "M4",
          created_at := 1, status := .queued, attempt := 1,
          started_at := none, finished_at := none, result_tf := none,
          last_error := some (trunc800 "The operation timed out") }],
       .requeued) ∧
    workerTimeoutStep "U4" "The operation timed out" 3 9
        [{ job_id := "J", user_id := "U4", message_id := "M4",
           created_at := 1, status := .queued, attempt := 3,
           started_at := none, finished_at := none, result_tf := none,
           last_error := some (trunc800 "The operation timed out") }] =
      ([{ job_id := "J", user_id := "U4", message_id := "M4",
          created_at := 1, status := .error, attempt := 3,
          started_at := some 9, finished_at := some 9, result_tf := none,
          last_error := some (trunc800 "The operation timed out") }],
       .errored) := by
  refine ⟨?_, by decide, by decide, by decide⟩
  intro k
  have h1 : handleInternalAnalyzeChain "U4" 9 (k + 1)
      (enqueueAnalysisJob "U4" "M4" 1 []).1 =
      handleInternalAnalyzeChain "U4" 9 k
        (handleInternalAnalyzeStoreStep "U4" 9
          (enqueueAnalysisJob "U4" "M4" 1 []).1) := rfl
  have h2 : handleInternalAnalyzeStoreStep "U4" 9
      (enqueueAnalysisJob "U4" "M4" 1 []).1 =
      [{ job_id := makeJobId 1 "U4" "M4", user_id := "U4",
         message_id := "M4", created_at := 1, status := .processing,
         attempt := 0, started_at := some 9, finished_at := none,
         result_tf := none, last_error := none }] := by decide
  rw [h1, h2]
  rw [chain_stuck "U4" 9 k
      [{ job_id := makeJobId 1 "U4" "M4", user_id := "U4",
         message_id := "M4", created_at := 1, status := .processing,
         attempt := 0, started_at := some 9, finished_at := none,
         result_tf := none, last_error := none }] (by decide)]
  decide

/-! ## Claim C1 -/

/-- `processingCount` as a `countP`. -/
theorem pc_countP (u : String) (s : Store) :
    processingCount u s =
      s.countP (fun j => decide (j.user_id = u ∧ j.status = .processing)) := by
  rw [processingCount, List.countP_eq_length_filter]

/-- A per-row update can only add processing rows of user `u` at rows
accounted for by `p`. -/
theorem countP_proc_map_le {g : Job → Job} {p : Job → Bool} {u : String}
    (hg : ∀ j : Job, (g j).user_id = u → (g j).status = .processing →
      (j.user_id = u ∧ j.status = .processing) ∨ p j = true)
    (s : Store) :
    processingCount u (s.map g) ≤ processingCount u s + s.countP p := by
  rw [pc_countP, pc_countP]
  induction s with
  | nil => simp
  | cons j t ih =>
    simp only [List.map_cons, List.countP_cons]
    have hstep :
        (if decide ((g j).user_id = u ∧ (g j).status = .processing) = true
          then 1 else 0) ≤
        (if decide (j.user_id = u ∧ j.status = .processing) = true
          then 1 else 0) + (if p j = true then 1 else 0) := by
      by_cases h1 : decide ((g j).user_id = u ∧ (g j).status = .processing) = true
      · obtain ⟨ha, hb⟩ := of_decide_eq_true h1
        rcases hg j ha hb with hc | hc
        · rw [if_pos h1, if_pos (decide_eq_true hc)]
          omega
        · rw [if_pos h1, if_pos hc]
          omega
      · rw [if_neg h1]
        omega
    omega

/-- A pointwise-stronger predicate counts no more rows. -/
theorem countP_le_of_imp {p q : Job → Bool}
    (h : ∀ a : Job, p a = true → q a = true) :
    ∀ s : Store, s.countP p ≤ s.countP q := by
  intro s
  induction s with
  | nil => simp
  | cons j t ih =>
    rw [List.countP_cons, List.countP_cons]
    split_ifs with h1 h2 <;> try omega
    exact absurd (h j h1) h2

/-- With Nodup ids, at most one row matches a given job id. -/
theorem countP_job_id_le_one {s : Store} (hnd : (s.map Job.job_id).Nodup)
    (nid : String) : s.countP (fun j => decide (j.job_id = nid)) ≤ 1 := by
  induction s with
  | nil => simp
  | cons j t ih =>
    rw [List.map_cons, List.nodup_cons] at hnd
    rw [List.countP_cons]
    by_cases hc : decide (j.job_id = nid) = true
    · rw [if_pos hc]
      have hz : t.countP (fun j => decide (j.job_id = nid)) = 0 := by
        apply List.countP_eq_zero.2
        intro b hb hbn
        apply hnd.1
        rw [of_decide_eq_true hc, ← of_decide_eq_true hbn]
        exact List.mem_map_of_mem Job.job_id hb
      omega
    · rw [if_neg hc]
      have := ih hnd.2
      omega

/-- With Nodup ids, no row of a different user matches the id of `next`. -/
theorem countP_user_mismatch_zero {s : Store}
    (hnd : (s.map Job.job_id).Nodup) {next : Job} (hmem : next ∈ s)
    {u' : String} (hne : next.user_id ≠ u') :
    s.countP (fun j => decide (j.user_id = u' ∧ j.job_id = next.job_id)) = 0 := by
  apply List.countP_eq_zero.2
  intro b hb hbp
  obtain ⟨hbu, hbid⟩ := of_decide_eq_true hbp
  exact hne ((job_id_unique hnd hmem hb hbid.symm) ▸ hbu)

/-- An id-preserving per-row update keeps the id column unchanged. -/
theorem map_preserves_ids {g : Job → Job} (hid : ∀ j, (g j).job_id = j.job_id)
    (s : Store) : (s.map g).map Job.job_id = s.map Job.job_id := by
  rw [List.map_map]
  exact List.map_congr_left fun a _ => hid a

/-- A per-row update preserving ids and users and never introducing
processing preserves the representation invariant. -/
theorem inv_map (g : Job → Job) (hid : ∀ j, (g j).job_id = j.job_id)
    (huser : ∀ j, (g j).user_id = j.user_id)
    (hproc : ∀ j, (g j).status = .processing → j.status = .processing)
    {s : Store} (h : StoreInv s) : StoreInv (s.map g) := by
  refine ⟨?_, ?_⟩
  · rw [map_preserves_ids hid]
    exact h.1
  · intro u
    have hb := countP_proc_map_le (p := fun _ => false) (u := u)
      (fun j hu hp => Or.inl ⟨by rw [← huser j]; exact hu, hproc j hp⟩) s
    have hz : s.countP (fun _ : Job => false) = 0 :=
      List.countP_eq_zero.2 fun a _ => by simp
    rw [hz] at hb
    exact le_trans (by simpa using hb) (h.2 u)

/-- Deleting rows preserves the representation invariant. -/
theorem inv_filter (q : Job → Bool) {s : Store} (h : StoreInv s) :
    StoreInv (s.filter q) := by
  refine ⟨?_, ?_⟩
  · exact List.Nodup.sublist (List.Sublist.map Job.job_id
      (List.filter_sublist s)) h.1
  · intro u
    rw [pc_countP]
    calc (s.filter q).countP
          (fun j => decide (j.user_id = u ∧ j.status = .processing)) ≤
        s.countP (fun j => decide (j.user_id = u ∧ j.status = .processing)) :=
          List.Sublist.countP_le _ (List.filter_sublist s)
      _ ≤ 1 := by rw [← pc_countP]; exact h.2 u

/-- Requeue preserves the representation invariant. -/
theorem inv_requeue (jid : String) (a : Nat) (e : Option String) {s : Store}
    (h : StoreInv s) : StoreInv (requeueJob jid a e s) := by
  apply inv_map _ _ _ _ h
  · intro j
    by_cases hc : decide (j.job_id = jid) = true
    · rw [if_pos hc]
    · rw [if_neg hc]
  · intro j
    by_cases hc : decide (j.job_id = jid) = true
    · rw [if_pos hc]
    · rw [if_neg hc]
  · intro j hp
    by_cases hc : decide (j.job_id = jid) = true
    · rw [if_pos hc] at hp
      simp at hp
    · rwa [if_neg hc] at hp

/-- Mark-error preserves the representation invariant. -/
theorem inv_markError (jid : String) (now : Nat) (msg : String) {s : Store}
    (h : StoreInv s) : StoreInv (markJobError jid now msg s) := by
  apply inv_map _ _ _ _ h
  · intro j
    by_cases hc : decide (j.job_id = jid) = true
    · rw [if_pos hc]
    · rw [if_neg hc]
  · intro j
    by_cases hc : decide (j.job_id = jid) = true
    · rw [if_pos hc]
    · rw [if_neg hc]
  · intro j hp
    by_cases hc : decide (j.job_id = jid) = true
    · rw [if_pos hc] at hp
      simp at hp
    · rwa [if_neg hc] at hp

/-- Mark-done (update plus prune) preserves the representation invariant. -/
theorem inv_markDone (jid : String) (now : Nat) (tf : Option String)
    {s : Store} (h : StoreInv s) : StoreInv (markJobDone jid now tf s) := by
  have h1 : StoreInv (updateDoneRow jid now tf s) := by
    apply inv_map _ _ _ _ h
    · intro j
      by_cases hc : decide (j.job_id = jid) = true
      · rw [if_pos hc]
      · rw [if_neg hc]
    · intro j
      by_cases hc : decide (j.job_id = jid) = true
      · rw [if_pos hc]
      · rw [if_neg hc]
    · intro j hp
      by_cases hc : decide (j.job_id = jid) = true
      · rw [if_pos hc] at hp
        simp at hp
      · rwa [if_neg hc] at hp
  cases hf : (updateDoneRow jid now tf s).find?
      (fun j => decide (j.job_id = jid)) with
  | none =>
    simp only [markJobDone, hf]
    exact h1
  | some row =>
    simp only [markJobDone, hf, pruneDoneJobHistory]
    exact inv_filter _ h1

/-- Enqueue preserves the representation invariant. -/
theorem inv_enqueue (u m : String) (now : Nat) {s : Store}
    (h : StoreInv s) : StoreInv (enqueueAnalysisJob u m now s).1 := by
  by_cases hany : s.any (fun j => decide (j.job_id = makeJobId now u m)) = true
  · have h1 : (enqueueAnalysisJob u m now s).1 = s := by
      unfold enqueueAnalysisJob
      rw [if_pos hany]
    rw [h1]
    exact h
  · have h1 : (enqueueAnalysisJob u m now s).1 = s ++ [newJobRow u m now] := by
      unfold enqueueAnalysisJob
      rw [if_neg hany]
    rw [h1]
    refine ⟨?_, ?_⟩
    · rw [List.map_append]
      rw [List.nodup_append]
      refine ⟨h.1, by simp, ?_⟩
      intro x hx
      obtain ⟨j, hj, rfl⟩ := List.mem_map.1 hx
      simp only [newJobRow, List.map_cons, List.map_nil, List.mem_singleton]
      intro heq
      rw [List.any_eq_true] at hany
      exact hany ⟨j, hj, decide_eq_true heq⟩
    · intro u'
      rw [pc_countP, List.countP_append]
      have hz : ([newJobRow u m now] : Store).countP
          (fun j => decide (j.user_id = u' ∧ j.status = .processing)) = 0 := by
        simp [newJobRow]
      rw [hz, ← pc_countP]
      simpa using h.2 u'

/-- The processing rows of the claim update are bounded by the rows
matching the claimed job id. -/
theorem pc_claim_update_le (next : Job) (now : Nat) (v : String) (s : Store) :
    processingCount v (s.map fun j =>
      if decide (j.job_id = next.job_id ∧ j.status = .queued) then
        { j with status := .processing, started_at := some now,
                 last_error := none }
      else j) ≤
    processingCount v s +
      s.countP (fun j => decide (j.user_id = v ∧ j.job_id = next.job_id)) := by
  apply countP_proc_map_le
  intro j hju hjp
  by_cases hc : decide (j.job_id = next.job_id ∧ j.status = .queued) = true
  · right
    obtain ⟨hid, -⟩ := of_decide_eq_true hc
    rw [if_pos hc] at hju
    exact decide_eq_true ⟨hju, hid⟩
  · left
    rw [if_neg hc] at hju hjp
    exact ⟨hju, hjp⟩

/-- The claim operation preserves the representation invariant. -/
theorem inv_claimNext (u : String) (now : Nat) {s : Store}
    (h : StoreInv s) : StoreInv (claimNextQueuedJob u now s).2 := by
  rcases claimNext_store_shape u now s with hsame | ⟨hpc0, next, hmem, huser, -, hmap⟩
  · rw [hsame]
    exact h
  · rw [hmap]
    refine ⟨?_, ?_⟩
    · rw [map_preserves_ids]
      · exact h.1
      · intro j
        by_cases hc : decide (j.job_id = next.job_id ∧ j.status = .queued) = true
        · rw [if_pos hc]
        · rw [if_neg hc]
    · intro v
      have hb := pc_claim_update_le next now v s
      by_cases hu : next.user_id = v
      · have hle : s.countP
            (fun j => decide (j.user_id = v ∧ j.job_id = next.job_id)) ≤ 1 := by
          refine le_trans (countP_le_of_imp ?_ s)
            (countP_job_id_le_one h.1 next.job_id)
          intro a ha
          exact decide_eq_true (of_decide_eq_true ha).2
        have hzero : processingCount v s = 0 := by
          have huv : v = u := by
            rw [← hu]
            exact huser
          rw [huv]
          exact hpc0
        omega
      · have hz := countP_user_mismatch_zero h.1 hmem hu
        rw [hz] at hb
        exact le_trans (by simpa using hb) (h.2 v)

/-- Every job-store operation preserves the representation invariant. -/
theorem applyOp_preserves_inv (op : Op) {s : Store} (h : StoreInv s) :
    StoreInv (applyOp op s) := by
  cases op with
  | enqueue u m now => exact inv_enqueue u m now h
  | claimNext u now => exact inv_claimNext u now h
  | requeue jid a e => exact inv_requeue jid a e h
  | markDone jid now tf => exact inv_markDone jid now tf h
  | markError jid now msg => exact inv_markError jid now msg h

/-- Any operation sequence from the empty table satisfies the invariant. -/
theorem runOps_inv (ops : List Op) : StoreInv (runOps ops) := by
  suffices hstep : ∀ s, StoreInv s →
      StoreInv (ops.foldl (fun s op => applyOp op s) s) by
    refine hstep [] ⟨by simp, fun u => ?_⟩
    simp [processingCount]
  induction ops with
  | nil => exact fun s h => h
  | cons op rest ih =>
    intro s h
    exact ih _ (applyOp_preserves_inv op h)

/-- Rows of the mark-done result come from the updated (pre-prune)
table. -/
theorem markJobDone_mem {jid : String} {now : Nat} {tf : Option String}
    {s : Store} {k : Job} (hk : k ∈ markJobDone jid now tf s) :
    k ∈ updateDoneRow jid now tf s := by
  cases hf : (updateDoneRow jid now tf s).find?
      (fun j => decide (j.job_id = jid)) with
  | none =>
    simp only [markJobDone, hf] at hk
    exact hk
  | some row =>
    simp only [markJobDone, hf, pruneDoneJobHistory] at hk
    exact List.mem_of_mem_filter hk

/-- Among the five job-store operations, only the claim operation can make
a row processing: after any non-claim operation, every processing row was
already processing (same job id) before the operation. -/
theorem nonclaim_no_new_processing (op : Op) (s : Store) (j : Job)
    (hnc : op.isClaim = false) (hj : j ∈ applyOp op s)
    (hp : j.status = .processing) :
    ∃ j0, j0 ∈ s ∧ j0.job_id = j.job_id ∧ j0.status = .processing := by
  cases op with
  | claimNext u now => simp [Op.isClaim] at hnc
  | enqueue u m now =>
    by_cases hany : s.any (fun x => decide (x.job_id = makeJobId now u m)) = true
    · have h1 : (applyOp (.enqueue u m now) s) = s := by
        simp only [applyOp]
        unfold enqueueAnalysisJob
        rw [if_pos hany]
      rw [h1] at hj
      exact ⟨j, hj, rfl, hp⟩
    · have h1 : (applyOp (.enqueue u m now) s) = s ++ [newJobRow u m now] := by
        simp only [applyOp]
        unfold enqueueAnalysisJob
        rw [if_neg hany]
      rw [h1] at hj
      rcases List.mem_append.1 hj with hj | hj
      · exact ⟨j, hj, rfl, hp⟩
      · rw [List.mem_singleton] at hj
        rw [hj] at hp
        exact absurd hp (by simp [newJobRow])
  | requeue jid a e =>
    simp only [applyOp] at hj
    unfold requeueJob at hj
    obtain ⟨x, hx, rfl⟩ := List.mem_map.1 hj
    by_cases hc : decide (x.job_id = jid) = true
    · rw [if_pos hc] at hp
      simp at hp
    · rw [if_neg hc] at hp ⊢
      exact ⟨x, hx, rfl, hp⟩
  | markDone jid now tf =>
    simp only [applyOp] at hj
    have hj1 := markJobDone_mem hj
    unfold updateDoneRow at hj1
    obtain ⟨x, hx, rfl⟩ := List.mem_map.1 hj1
    by_cases hc : decide (x.job_id = jid) = true
    · rw [if_pos hc] at hp
      simp at hp
    · rw [if_neg hc] at hp ⊢
      exact ⟨x, hx, rfl, hp⟩
  | markError jid now msg =>
    simp only [applyOp] at hj
    unfold markJobError at hj
    obtain ⟨x, hx, rfl⟩ := List.mem_map.1 hj
    by_cases hc : decide (x.job_id = jid) = true
    · rw [if_pos hc] at hp
      simp at hp
    · rw [if_neg hc] at hp ⊢
      exact ⟨x, hx, rfl, hp⟩

/-- C1: across any sequence of job-store operations from the empty table,
every user has at most one processing row at every observable point; only
the claim operation can move a row into processing; and when a user
already has a processing row, claimNext returns none and leaves the table
untouched. -/
theorem at_most_one_processing :
    (∀ (ops : List Op) (u : String), processingCount u (runOps ops) ≤ 1) ∧
    (∀ (op : Op) (s : Store) (j : Job), op.isClaim = false →
      j ∈ applyOp op s → j.status = .processing →
      ∃ j0, j0 ∈ s ∧ j0.job_id = j.job_id ∧ j0.status = .processing) ∧
    (∀ (u : String) (now : Nat) (s : Store),
      0 < processingCount u s → claimNextQueuedJob u now s = (none, s)) := by
  refine ⟨?_, nonclaim_no_new_processing, ?_⟩
  · intro ops u
    exact (runOps_inv ops).2 u
  · intro u now s h
    unfold claimNextQueuedJob
    rw [if_pos h]

/-- Witness for C1: a concrete enqueue-claim-enqueue-claim sequence keeps
the processing count at one; a markDone of a different id leaves a
processing row traceable to itself; a busy claim returns none. -/
theorem at_most_one_processing_witness :
    processingCount "U1" (runOps
      [.enqueue "U1" "A" 1, .enqueue "U1" "B" 2, .claimNext "U1" 3,
       .claimNext "U1" 4]) ≤ 1 ∧
    (∃ j0, j0 ∈ ([{ job_id := "JP", user_id := "U1", message_id := "M",
                     created_at := 1, status := .processing, attempt := 0,
                     started_at := some 2, finished_at := none,
                     result_tf := none, last_error := none }] : Store) ∧
      j0.job_id = ({ job_id := "JP", user_id := "U1", message_id := "M",
                     created_at := 1, status := .processing, attempt := 0,
                     started_at := some 2, finished_at := none,
                     result_tf := none,
                     last_error := none } : Job).job_id ∧
      j0.status = .processing) ∧
    claimNextQueuedJob "U1" 9
      [{ job_id := "JP", user_id := "U1", message_id := "M", created_at := 1,
         status := .processing, attempt := 0, started_at := some 2,
         finished_at := none, result_tf := none, last_error := none },
       { job_id := "JQ", user_id := "U1", message_id := "N", created_at := 5,
         status := .queued, attempt := 0, started_at := none,
         finished_at := none, result_tf := none, last_error := none }] =
      (none,
       [{ job_id := "JP", user_id := "U1", message_id := "M", created_at := 1,
          status := .processing, attempt := 0, started_at := some 2,
          finished_at := none, result_tf := none, last_error := none },
        { job_id := "JQ", user_id := "U1", message_id := "N", created_at := 5,
          status := .queued, attempt := 0, started_at := none,
          finished_at := none, result_tf := none, last_error := none }]) :=
  ⟨at_most_one_processing.1
      [.enqueue "U1" "A" 1, .enqueue "U1" "B" 2, .claimNext "U1" 3,
       .claimNext "U1" 4] "U1",
   at_most_one_processing.2.1 (.markDone "X" 9 none)
      [{ job_id := "JP", user_id := "U1", message_id := "M", created_at := 1,
         status := .processing, attempt := 0, started_at := some 2,
         finished_at := none, result_tf := none, last_error := none }]
      { job_id := "JP", user_id := "U1", message_id := "M", created_at := 1,
        status := .processing, attempt := 0, started_at := some 2,
        finished_at := none, result_tf := none, last_error := none }
      (by decide) (by decide) (by decide),
   at_most_one_processing.2.2 "U1" 9
      [{ job_id := "JP", user_id := "U1", message_id := "M", created_at := 1,
         status := .processing, attempt := 0, started_at := some 2,
         finished_at := none, result_tf := none, last_error := none },
       { job_id := "JQ", user_id := "U1", message_id := "N", created_at := 5,
         status := .queued, attempt := 0, started_at := none,
         finished_at := none, result_tf := none, last_error := none }]
      (by decide)⟩

/-! ## Claim C3 -/

/-- Claiming against a single queued job of the user claims that job. -/
theorem claimNext_singleton (u : String) (now : Nat) (j : Job)
    (hu : j.user_id = u) (hq : j.status = .queued) :
    claimNextQueuedJob u now [j] =
      (some { job_id := j.job_id, message_id := j.message_id,
              created_at := j.created_at, attempt := j.attempt,
              started_at := now },
       [{ j with status := .processing, started_at := some now,
                 last_error := none }]) := by
  simp [claimNextQueuedJob, processingCount, selectOldest, hu, hq]

/-- Requeue of the only row. -/
theorem requeue_singleton (j : Job) (a : Nat) (e : Option String) :
    requeueJob j.job_id a e [j] =
      [{ j with status := .queued, attempt := a, started_at := none,
                last_error := e.map trunc800 }] := by
  simp [requeueJob]

/-- Mark-error of the only row. -/
theorem markError_singleton (j : Job) (now : Nat) (msg : String) :
    markJobError j.job_id now msg [j] =
      [{ j with status := .error, finished_at := some now,
                last_error := some (trunc800 msg) }] := by
  simp [markJobError]

/-- Driving the always-retryable-failure processor from a single queued
job with `d` remaining budget: exactly `d` requeues then one error, with
no intermediate state done or over the attempt cap. -/
theorem retryRun_master (u msg : String) (M now : Nat)
    (hr : retryableMsg msg = true) :
    ∀ (d : Nat) (j : Job), j.user_id = u → j.status = .queued →
      j.attempt + d = M →
      (retryRun u msg M now (d + 1) [j] =
        ([{ j with status := .error, attempt := M, started_at := some now,
                   finished_at := some now,
                   last_error := some (trunc800 msg) }],
         List.replicate d .requeued ++ [.errored]) ∧
      (∀ k ≤ d + 1, ∀ x ∈ (retryRun u msg M now k [j]).1,
        x.status ≠ .done ∧ x.attempt ≤ M)) := by
  intro d
  induction d with
  | zero =>
    intro j hu hq hM
    have hM' : j.attempt = M := by omega
    have hstep : retryStep u msg M now [j] =
        ([{ j with status := .error, attempt := M, started_at := some now,
                   finished_at := some now,
                   last_error := some (trunc800 msg) }], .errored) := by
      simp only [retryStep, claimNext_singleton u now j hu hq]
      rw [if_neg (by rintro ⟨-, hle⟩; omega)]
      have hme := markError_singleton
        ({ j with status := .processing, started_at := some now,
                  last_error := none }) now msg
      simp only at hme
      rw [hme, hM']
    have hone : retryRun u msg M now 1 [j] =
        ([{ j with status := .error, attempt := M, started_at := some now,
                   finished_at := some now,
                   last_error := some (trunc800 msg) }], [.errored]) := by
      simp only [retryRun, hstep]
    constructor
    · rw [hone]
      simp
    · intro k hk x hx
      interval_cases k
      · simp only [retryRun] at hx
        rw [List.mem_singleton] at hx
        rw [hx, hq]
        refine ⟨?_, by omega⟩
        intro hc
        exact JStatus.noConfusion hc
      · rw [hone] at hx
        rw [List.mem_singleton] at hx
        rw [hx]
        refine ⟨?_, by simp⟩
        intro hc
        exact JStatus.noConfusion hc
  | succ d ih =>
    intro j hu hq hM
    have hstep : retryStep u msg M now [j] =
        ([{ j with status := .queued, attempt := j.attempt + 1,
                   started_at := none,
                   last_error := some (trunc800 msg) }], .requeued) := by
      simp only [retryStep, claimNext_singleton u now j hu hq]
      rw [if_pos ⟨hr, by omega⟩]
      have hre := requeue_singleton
        ({ j with status := .processing, started_at := some now,
                  last_error := none }) (j.attempt + 1) (some msg)
      simp only at hre
      rw [hre]
      rfl
    have hih := ih ({ j with status := .queued, attempt := j.attempt + 1,
                             started_at := none,
                             last_error := some (trunc800 msg) })
      hu rfl (by simp only; omega)
    have hrw : ∀ k : Nat, retryRun u msg M now (k + 1) [j] =
        ((retryRun u msg M now k
          [{ j with status := .queued, attempt := j.attempt + 1,
                    started_at := none,
                    last_error := some (trunc800 msg) }]).1,
         .requeued :: (retryRun u msg M now k
          [{ j with status := .queued, attempt := j.attempt + 1,
                    started_at := none,
                    last_error := some (trunc800 msg) }]).2) := by
      intro k
      simp only [retryRun, hstep]
    constructor
    · rw [hrw (d + 1)]
      have h1 := hih.1
      rw [h1]
      refine Prod.ext ?_ ?_
      · rfl
      · simp [List.replicate_succ]
    · intro k hk x hx
      cases k with
      | zero =>
        simp only [retryRun] at hx
        rw [List.mem_singleton] at hx
        rw [hx, hq]
        refine ⟨?_, by omega⟩
        intro hc
        exact JStatus.noConfusion hc
      | succ k2 =>
        rw [hrw k2] at hx
        exact hih.2 k2 (by omega) x hx

/-- C3: starting from one freshly enqueued job (attempt 0), a processor
whose analysis call always fails with a retryable (429/503/500) error
requeues the job exactly `maxAttempts` times, incrementing the attempt
counter each time, and the following invocation marks it error: the run of
`maxAttempts + 1` invocations produces the tag sequence
requeued^maxAttempts ++ [errored] and leaves the job in status error with
attempt = maxAttempts; at no observable point is the job done, and the
attempt field never exceeds `maxAttempts`. -/
theorem retry_bound (u m msg : String) (t0 M now : Nat)
    (hr : retryableMsg msg = true) :
    retryRun u msg M now (M + 1) (enqueueAnalysisJob u m t0 []).1 =
      ([{ job_id := makeJobId t0 u m, user_id := u, message_id := m,
          created_at := t0, status := .error, attempt := M,
          started_at := some now, finished_at := some now,
          result_tf := none, last_error := some (trunc800 msg) }],
       List.replicate M .requeued ++ [.errored]) ∧
    (∀ k ≤ M + 1, ∀ x ∈ (retryRun u msg M now k
        (enqueueAnalysisJob u m t0 []).1).1,
      x.status ≠ .done ∧ x.attempt ≤ M) := by
  have hs0 : (enqueueAnalysisJob u m t0 []).1 = [newJobRow u m t0] := by
    unfold enqueueAnalysisJob
    rw [if_neg (by simp)]
    rfl
  rw [hs0]
  have hmain := retryRun_master u msg M now hr M (newJobRow u m t0) rfl rfl
    (by simp [newJobRow])
  constructor
  · rw [hmain.1]
    simp [newJobRow]
  · exact hmain.2

/-- Witness for C3 with maxAttempts 2 and a 429 failure: the run is
requeued, requeued, errored, the final row is the error row with attempt
2, and the state after the full run is not done and within the cap. -/
theorem retry_bound_witness :
    retryRun "U3" "HTTP 429" 2 7 3 (enqueueAnalysisJob "U3" "M3" 0 []).1 =
      ([{ job_id := makeJobId 0 "U3" "M3", user_id := "U3",
          message_id := "M3", created_at := 0, status := .error,
          attempt := 2, started_at := some 7, finished_at := some 7,
          result_tf := none,
          last_error := some (trunc800 "HTTP 429") }],
       List.replicate 2 .requeued ++ [.errored]) ∧
    (({ job_id := makeJobId 0 "U3" "M3", user_id := "U3",
        message_id := "M3", created_at := 0, status := .error,
        attempt := 2, started_at := some 7, finished_at := some 7,
        result_tf := none,
        last_error := some (trunc800 "HTTP 429") } : Job).status ≠ .done ∧
      ({ job_id := makeJobId 0 "U3" "M3", user_id := "U3",
         message_id := "M3", created_at := 0, status := .error,
         attempt := 2, started_at := some 7, finished_at := some 7,
         result_tf := none,
         last_error := some (trunc800 "HTTP 429") } : Job).attempt ≤ 2) :=
  ⟨(retry_bound "U3" "M3" "HTTP 429" 0 2 7 (by decide)).1,
   (retry_bound "U3" "M3" "HTTP 429" 0 2 7 (by decide)).2 3 (by omega)
     { job_id := makeJobId 0 "U3" "M3", user_id := "U3", message_id := "M3",
       created_at := 0, status := .error, attempt := 2,
       started_at := some 7, finished_at := some 7, result_tf := none,
       last_error := some (trunc800 "HTTP 429") }
     (by decide)⟩

/-! ## Claim C8 -/

/-- Stable descending insertion is a permutation. -/
theorem insertDesc_perm (key : Job → Nat) (j : Job) :
    ∀ l : List Job, List.Perm (insertDesc key j l) (j :: l) := by
  intro l
  induction l with
  | nil => exact List.Perm.refl _
  | cons k t ih =>
    unfold insertDesc
    by_cases hc : key k < key j
    · rw [if_pos hc]
    · rw [if_neg hc]
      exact (ih.cons k).trans (List.Perm.swap j k t)

/-- The descending sort is a permutation of its input. -/
theorem sortDesc_perm (key : Job → Nat) :
    ∀ l : List Job, List.Perm (sortDesc key l) l := by
  intro l
  induction l with
  | nil => exact List.Perm.refl _
  | cons j t ih =>
    exact (insertDesc_perm key j (sortDesc key t)).trans (ih.cons j)

/-- Inserting into a descending-sorted list keeps it sorted. -/
theorem insertDesc_sorted (key : Job → Nat) (j : Job) :
    ∀ {l : List Job}, l.Pairwise (fun a b => key b ≤ key a) →
    (insertDesc key j l).Pairwise (fun a b => key b ≤ key a) := by
  intro l
  induction l with
  | nil =>
    intro
    simp [insertDesc]
  | cons k t ih =>
    intro hl
    rw [List.pairwise_cons] at hl
    unfold insertDesc
    by_cases hc : key k < key j
    · rw [if_pos hc]
      refine List.Pairwise.cons ?_ (List.Pairwise.cons hl.1 hl.2)
      intro b hb
      rcases List.mem_cons.1 hb with rfl | hb
      · omega
      · have := hl.1 b hb
        omega
    · rw [if_neg hc]
      refine List.Pairwise.cons ?_ (ih hl.2)
      intro b hb
      have hb' : b ∈ j :: t := (insertDesc_perm key j t).mem_iff.1 hb
      rcases List.mem_cons.1 hb' with rfl | hb'
      · omega
      · exact hl.1 b hb'

/-- The descending sort is sorted. -/
theorem sortDesc_sorted (key : Job → Nat) :
    ∀ l : List Job, (sortDesc key l).Pairwise (fun a b => key b ≤ key a) := by
  intro l
  induction l with
  | nil => simp [sortDesc]
  | cons j t ih => exact insertDesc_sorted key j ih

/-- In a descending-sorted list, everything dropped is at most everything
taken. -/
theorem sorted_take_drop (key : Job → Nat) {l : List Job}
    (hl : l.Pairwise (fun a b => key b ≤ key a)) (n : Nat) :
    ∀ a ∈ l.take n, ∀ b ∈ l.drop n, key b ≤ key a := by
  have hl2 := hl
  rw [← List.take_append_drop n l] at hl2
  exact fun a ha b hb => (List.pairwise_append.1 hl2).2.2 a ha b hb

/-- Pruning keeps at most five done rows of the user, touches no row of
another status or user, and keeps the most recently finished rows: a
pruned row finished no later than any kept done row of the user. -/
theorem prune_spec (v : String) (s1 : Store)
    (hnd : (s1.map Job.job_id).Nodup) :
    doneCount v (pruneDoneJobHistory v s1 5) ≤ 5 ∧
    (∀ k ∈ s1, ¬(k.user_id = v ∧ k.status = .done) →
      k ∈ pruneDoneJobHistory v s1 5) ∧
    (∀ k1 ∈ s1, k1 ∉ pruneDoneJobHistory v s1 5 →
      ∀ k2 ∈ pruneDoneJobHistory v s1 5, k2.user_id = v →
        k2.status = .done →
        finKey k1.finished_at ≤ finKey k2.finished_at) := by
  have hp : pruneDoneJobHistory v s1 5 =
      s1.filter (fun j => decide ¬(j.user_id = v ∧ j.status = .done ∧
        j.job_id ∉ ((sortByFinishedDesc (s1.filter fun x =>
          decide (x.user_id = v ∧ x.status = .done))).take 5).map
            Job.job_id)) := rfl
  refine ⟨?_, ?_, ?_⟩
  · have hLsub : List.Sublist ((pruneDoneJobHistory v s1 5).filter
        (fun j => decide (j.user_id = v ∧ j.status = .done))) s1 :=
      (List.filter_sublist _).trans (by rw [hp]; exact List.filter_sublist _)
    have hLnd : (((pruneDoneJobHistory v s1 5).filter
        (fun j => decide (j.user_id = v ∧ j.status = .done))).map
          Job.job_id).Nodup :=
      List.Nodup.sublist (List.Sublist.map Job.job_id hLsub) hnd
    have hsubset : ∀ x ∈ ((pruneDoneJobHistory v s1 5).filter
        (fun j => decide (j.user_id = v ∧ j.status = .done))).map Job.job_id,
        x ∈ ((sortByFinishedDesc (s1.filter fun x =>
          decide (x.user_id = v ∧ x.status = .done))).take 5).map
            Job.job_id := by
      intro x hx
      obtain ⟨k, hkL, rfl⟩ := List.mem_map.1 hx
      have hk2 := List.mem_filter.1 hkL
      have hk3 := List.mem_filter.1 (hp ▸ hk2.1)
      have hnp := of_decide_eq_true hk3.2
      obtain ⟨hkv, hkd⟩ := of_decide_eq_true hk2.2
      by_contra hxn
      exact hnp ⟨hkv, hkd, hxn⟩
    calc doneCount v (pruneDoneJobHistory v s1 5)
        = (((pruneDoneJobHistory v s1 5).filter
            (fun j => decide (j.user_id = v ∧ j.status = .done))).map
              Job.job_id).length := by
          rw [List.length_map]
          rfl
      _ ≤ (((sortByFinishedDesc (s1.filter fun x =>
            decide (x.user_id = v ∧ x.status = .done))).take 5).map
              Job.job_id).length :=
          (hLnd.subperm hsubset).length_le
      _ ≤ 5 := by
          rw [List.length_map, List.length_take]
          omega
  · intro k hk hkn
    rw [hp]
    refine List.mem_filter.2 ⟨hk, decide_eq_true ?_⟩
    rintro ⟨h1, h2, -⟩
    exact hkn ⟨h1, h2⟩
  · intro k1 hk1 hk1n k2 hk2 hk2v hk2d
    have hk1p : k1.user_id = v ∧ k1.status = .done ∧
        k1.job_id ∉ ((sortByFinishedDesc (s1.filter fun x =>
          decide (x.user_id = v ∧ x.status = .done))).take 5).map
            Job.job_id := by
      by_contra hcon
      apply hk1n
      rw [hp]
      exact List.mem_filter.2 ⟨hk1, decide_eq_true hcon⟩
    have hk1dl : k1 ∈ s1.filter
        (fun x => decide (x.user_id = v ∧ x.status = .done)) :=
      List.mem_filter.2 ⟨hk1, decide_eq_true ⟨hk1p.1, hk1p.2.1⟩⟩
    have hk1sorted : k1 ∈ sortByFinishedDesc (s1.filter
        (fun x => decide (x.user_id = v ∧ x.status = .done))) :=
      (sortDesc_perm (fun j => finKey j.finished_at) _).mem_iff.2 hk1dl
    have hk1drop : k1 ∈ (sortByFinishedDesc (s1.filter
        (fun x => decide (x.user_id = v ∧ x.status = .done)))).drop 5 := by
      rw [← List.take_append_drop 5 (sortByFinishedDesc (s1.filter
        (fun x => decide (x.user_id = v ∧ x.status = .done))))] at hk1sorted
      rcases List.mem_append.1 hk1sorted with h | h
      · exact absurd (List.mem_map_of_mem Job.job_id h) hk1p.2.2
      · exact h
    have hk2mem := List.mem_filter.1 (hp ▸ hk2)
    have hk2keep : k2.job_id ∈ ((sortByFinishedDesc (s1.filter fun x =>
        decide (x.user_id = v ∧ x.status = .done))).take 5).map
          Job.job_id := by
      have hnp := of_decide_eq_true hk2mem.2
      by_contra hc
      exact hnp ⟨hk2v, hk2d, hc⟩
    obtain ⟨k2t, hk2t, hk2tid⟩ := List.mem_map.1 hk2keep
    have hk2ts1 : k2t ∈ s1 :=
      List.mem_of_mem_filter
        ((sortDesc_perm (fun j => finKey j.finished_at) _).mem_iff.1
          (List.mem_of_mem_take hk2t))
    have hk2eq : k2t = k2 := job_id_unique hnd hk2ts1 hk2mem.1 hk2tid
    have hres := sorted_take_drop (fun j => finKey j.finished_at)
      (sortDesc_sorted (fun j => finKey j.finished_at) _) 5 k2t hk2t k1 hk1drop
    rw [hk2eq] at hres
    exact hres

/-- C8: markDone stamps the row done with finished_at and result_tf, then
prunes that user (looked up from the updated row) so that at most the 5
most recently finished done rows remain: the done count of the owning
user is at most 5 afterwards, rows of other statuses survive pruning
untouched, and every pruned row finished no later than every kept done
row of the user. -/
theorem markDone_prunes (jid : String) (now : Nat) (tf : Option String)
    (s : Store) (hnd : (s.map Job.job_id).Nodup) :
    (∀ k ∈ markJobDone jid now tf s, k.job_id = jid →
      k.status = .done ∧ k.finished_at = some now ∧ k.result_tf = tf) ∧
    (∀ k ∈ updateDoneRow jid now tf s, k.status ≠ .done →
      k ∈ markJobDone jid now tf s) ∧
    (∀ row, (updateDoneRow jid now tf s).find?
        (fun j => decide (j.job_id = jid)) = some row →
      doneCount row.user_id (markJobDone jid now tf s) ≤ 5 ∧
      (∀ k1 ∈ updateDoneRow jid now tf s, k1 ∉ markJobDone jid now tf s →
        ∀ k2 ∈ markJobDone jid now tf s, k2.user_id = row.user_id →
          k2.status = .done →
          finKey k1.finished_at ≤ finKey k2.finished_at)) := by
  have hnd1 : ((updateDoneRow jid now tf s).map Job.job_id).Nodup := by
    unfold updateDoneRow
    rw [map_preserves_ids]
    · exact hnd
    · intro j
      by_cases hc : decide (j.job_id = jid) = true
      · rw [if_pos hc]
      · rw [if_neg hc]
  refine ⟨markJobDone_id_status jid now tf s, ?_, ?_⟩
  · intro k hk hkd
    cases hf : (updateDoneRow jid now tf s).find?
        (fun j => decide (j.job_id = jid)) with
    | none =>
      simp only [markJobDone, hf]
      exact hk
    | some row =>
      simp only [markJobDone, hf]
      refine (prune_spec row.user_id _ hnd1).2.1 k hk ?_
      rintro ⟨-, hd⟩
      exact hkd hd
  · intro row hf
    simp only [markJobDone, hf]
    exact ⟨(prune_spec row.user_id _ hnd1).1,
      (prune_spec row.user_id _ hnd1).2.2⟩

/-- Witness for C8 at a user with six completed jobs: completing a seventh
stamps it done with the new finished_at and result timeframe, and the
pruned store holds at most five done rows for the user. -/
theorem markDone_prunes_witness :
    (({ job_id := "P7", user_id := "U8", message_id := "MP",
        created_at := 7, status := .done, attempt := 0,
        started_at := some 8, finished_at := some 70,
        result_tf := some "H4", last_error := none } : Job).status = .done ∧
      ({ job_id := "P7", user_id := "U8", message_id := "MP",
         created_at := 7, status := .done, attempt := 0,
         started_at := some 8, finished_at := some 70,
         result_tf := some "H4",
         last_error := none } : Job).finished_at = some 70 ∧
      ({ job_id := "P7", user_id := "U8", message_id := "MP",
         created_at := 7, status := .done, attempt := 0,
         started_at := some 8, finished_at := some 70,
         result_tf := some "H4",
         last_error := none } : Job).result_tf = some "H4") ∧
    doneCount "U8" (markJobDone "P7" 70 (some "H4")
      [{ job_id := "D1", user_id := "U8", message_id := "M1",
         created_at := 1, status := .done, attempt := 0,
         started_at := some 1, finished_at := some 10,
         result_tf := some "H1", last_error := none },
       { job_id := "D2", user_id := "U8", message_id := "M2",
         created_at := 2, status := .done, attempt := 0,
         started_at := some 2, finished_at := some 20,
         result_tf := some "H1", last_error := none },
       { job_id := "D3", user_id := "U8", message_id := "M3",
         created_at := 3, status := .done, attempt := 0,
         started_at := some 3, finished_at := some 30,
         result_tf := some "H1", last_error := none },
       { job_id := "D4", user_id := "U8", message_id := "M4",
         created_at := 4, status := .done, attempt := 0,
         started_at := some 4, finished_at := some 40,
         result_tf := some "H1", last_error := none },
       { job_id := "D5", user_id := "U8", message_id := "M5",
         created_at := 5, status := .done, attempt := 0,
         started_at := some 5, finished_at := some 50,
         result_tf := some "H1", last_error := none },
       { job_id := "D6", user_id := "U8", message_id := "M6",
         created_at := 6, status := .done, attempt := 0,
         started_at := some 6, finished_at := some 60,
         result_tf := some "H1", last_error := none },
       { job_id := "P7", user_id := "U8", message_id := "MP",
         created_at := 7, status := .processing, attempt := 0,
         started_at := some 8, finished_at := none, result_tf := none,
         last_error := none }]) ≤ 5 := by
  constructor
  · exact (markDone_prunes "P7" 70 (some "H4")
      [{ job_id := "D1", user_id := "U8", message_id := "M1",
         created_at := 1, status := .done, attempt := 0,
         started_at := some 1, finished_at := some 10,
         result_tf := some "H1", last_error := none },
       { job_id := "D2", user_id := "U8", message_id := "M2",
         created_at := 2, status := .done, attempt := 0,
         started_at := some 2, finished_at := some 20,
         result_tf := some "H1", last_error := none },
       { job_id := "D3", user_id := "U8", message_id := "M3",
         created_at := 3, status := .done, attempt := 0,
         started_at := some 3, finished_at := some 30,
         result_tf := some "H1", last_error := none },
       { job_id := "D4", user_id := "U8", message_id := "M4",
         created_at := 4, status := .done, attempt := 0,
         started_at := some 4, finished_at := some 40,
         result_tf := some "H1", last_error := none },
       { job_id := "D5", user_id := "U8", message_id := "M5",
         created_at := 5, status := .done, attempt := 0,
         started_at := some 5, finished_at := some 50,
         result_tf := some "H1", last_error := none },
       { job_id := "D6", user_id := "U8", message_id := "M6",
         created_at := 6, status := .done, attempt := 0,
         started_at := some 6, finished_at := some 60,
         result_tf := some "H1", last_error := none },
       { job_id := "P7", user_id := "U8", message_id := "MP",
         created_at := 7, status := .processing, attempt := 0,
         started_at := some 8, finished_at := none, result_tf := none,
         last_error := none }] (by decide)).1
      { job_id := "P7", user_id := "U8", message_id := "MP",
        created_at := 7, status := .done, attempt := 0,
        started_at := some 8, finished_at := some 70,
        result_tf := some "H4", last_error := none }
      (by decide) (by decide)
  · exact ((markDone_prunes "P7" 70 (some "H4")
      [{ job_id := "D1", user_id := "U8", message_id := "M1",
         created_at := 1, status := .done, attempt := 0,
         started_at := some 1, finished_at := some 10,
         result_tf := some "H1", last_error := none },
       { job_id := "D2", user_id := "U8", message_id := "M2",
         created_at := 2, status := .done, attempt := 0,
         started_at := some 2, finished_at := some 20,
         result_tf := some "H1", last_error := none },
       { job_id := "D3", user_id := "U8", message_id := "M3",
         created_at := 3, status := .done, attempt := 0,
         started_at := some 3, finished_at := some 30,
         result_tf := some "H1", last_error := none },
       { job_id := "D4", user_id := "U8", message_id := "M4",
         created_at := 4, status := .done, attempt := 0,
         started_at := some 4, finished_at := some 40,
         result_tf := some "H1", last_error := none },
       { job_id := "D5", user_id := "U8", message_id := "M5",
         created_at := 5, status := .done, attempt := 0,
         started_at := some 5, finished_at := some 50,
         result_tf := some "H1", last_error := none },
       { job_id := "D6", user_id := "U8", message_id := "M6",
         created_at := 6, status := .done, attempt := 0,
         started_at := some 6, finished_at := some 60,
         result_tf := some "H1", last_error := none },
       { job_id := "P7", user_id := "U8", message_id := "MP",
         created_at := 7, status := .processing, attempt := 0,
         started_at := some 8, finished_at := none, result_tf := none,
         last_error := none }] (by decide)).2.2
      { job_id := "P7", user_id := "U8", message_id := "MP",
        created_at := 7, status := .done, attempt := 0,
        started_at := some 8, finished_at := some 70,
        result_tf := some "H4", last_error := none }
      (by decide)).1
